import Mathlib

/-!
Shallow embedding of the two-tier cache service and the week-data fetch
orchestrator of the nbaghiro.com server, together with proofs about the
behaviour of its operations.

The embedding covers:
  - the in-memory LRU tier (an lru-cache instance with max 10, a 1 hour
    default TTL and updateAgeOnGet), modelled as a recency-ordered list;
  - the Firestore durable tier, modelled as an association list per
    collection together with failure flags for reads, writes and batch
    commits (a flag set means the corresponding call throws);
  - the cache service operations getWeekFromCache, setWeekInCache,
    getYearFromCache, setYearInCache, clearAllCache, warmCache and the
    statistics counters;
  - the week-data service operations generateWeekData, checkCacheStatus
    and generateWeeks.

Time is an explicit natural-number parameter in milliseconds (the value of
Date.now()); the current calendar year is likewise an explicit parameter.
For the values and states the operations compute, asynchronous code is
modelled at one valid schedule: awaited calls run to completion in program
order, and the parallel phases (Promise.all and Promise.allSettled) are
folded sequentially in list order.  Statements about in-flight produce
calls are instead made against a schedule-generic trace semantics: each
per-key fetch task can emit, on any schedule, either no produce events or
one start/settle block for its own key (TaskTrace, grounded in the task
body by generateWeekData_trace); the Promise.all cached phase admits every
interleaving of its task traces (ParTraces); the awaited cold loop
concatenates its task traces in order, since each iteration only starts
after the previous produce call has settled (BatchTraces).
-/

namespace Nbaghiro

/-- Opaque week/year payload as produced by the data services; `weekNumber`
is the field the week-data service stores in each record and the batch sort
compares on, `body` stands for the rest of the object. -/
structure WeekData where
  weekNumber : Nat
  body : Nat
deriving Repr, DecidableEq

/-- A record as stored in either cache tier: the payload spread together
with the metadata `cachedAt` / `expiresAt` added by the set operations
(an `expiresAt` of none models a null / absent field, meaning no expiry). -/
structure CacheRecord where
  data : WeekData
  cachedAt : Nat
  expiresAt : Option Nat
deriving Repr, DecidableEq

/-- One entry of the in-memory lru-cache: key, value, its per-entry TTL
(`none` models ttl 0 / null, i.e. no expiry) and the time the TTL started
(set time, refreshed on get by updateAgeOnGet). -/
structure LRUEntry where
  key : String
  val : CacheRecord
  ttl : Option Nat
  start : Nat
deriving Repr, DecidableEq

/-- The in-memory lru-cache: capacity `max`, constructor default TTL, and
the entries in recency order, most recently used first. -/
structure LRU where
  max : Nat
  ttl : Option Nat
  entries : List LRUEntry
deriving Repr, DecidableEq

/-- Entry staleness as lru-cache computes it: an entry with a TTL is stale
once more than `ttl` milliseconds have passed since `start`. -/
def LRUEntry.isStale (e : LRUEntry) (now : Nat) : Bool :=
  match e.ttl with
  | none => false
  | some t => decide (e.start + t < now)

/-- Look an entry up by key (no recency effect). -/
def LRU.findEntry (c : LRU) (k : String) : Option LRUEntry :=
  c.entries.find? (fun e => e.key == k)

/-- The has operation: true when the key is present and not stale; it does
not update recency (updateAgeOnHas is left at its default). -/
def LRU.hasKey (c : LRU) (now : Nat) (k : String) : Bool :=
  match c.findEntry k with
  | some e => ! e.isStale now
  | none => false

/-- All entries except the one with the given key. -/
def LRU.removeKey (c : LRU) (k : String) : List LRUEntry :=
  c.entries.filter (fun e => e.key != k)

/-- The get operation: a stale entry is deleted and absent is returned;
a live entry is returned, moved to most recently used, and its TTL clock
restarted (updateAgeOnGet is true on this cache). -/
def LRU.get (c : LRU) (now : Nat) (k : String) : Option CacheRecord × LRU :=
  match c.findEntry k with
  | none => (none, c)
  | some e =>
      if e.isStale now then
        (none, { c with entries := c.removeKey k })
      else
        (some e.val, { c with entries := { e with start := now } :: c.removeKey k })

/-- The set operation with an explicit ttl option: the key becomes most
recently used with a fresh TTL clock, and if the cache is over capacity the
least recently used entry is evicted. -/
def LRU.setWith (c : LRU) (now : Nat) (k : String) (v : CacheRecord)
    (ttl : Option Nat) : LRU :=
  { c with entries :=
      ({ key := k, val := v, ttl := ttl, start := now } :: c.removeKey k).take c.max }

/-- The set operation without a ttl option: the constructor default TTL is
used. -/
def LRU.set (c : LRU) (now : Nat) (k : String) (v : CacheRecord) : LRU :=
  c.setWith now k v c.ttl

/-- The L1 cache as constructed in cacheService.js: new LRUCache with
max 10, ttl 1000 * 60 * 60 and updateAgeOnGet true. -/
def memoryCacheInit : LRU :=
  { max := 10, ttl := some (1000 * 60 * 60), entries := [] }

/-- One Firestore collection: its documents as an association list plus
flags that make the corresponding Firestore calls throw (get on a document,
set, and batch commit respectively). -/
structure FsColl where
  docs : List (String × CacheRecord)
  readFails : Bool
  writeFails : Bool
  commitFails : Bool
deriving Repr, DecidableEq

/-- Document lookup in a collection. -/
def FsColl.get (c : FsColl) (k : String) : Option CacheRecord :=
  (c.docs.find? (fun d => d.1 == k)).map (fun d => d.2)

/-- Document write (full overwrite) in a collection. -/
def FsColl.set (c : FsColl) (k : String) (v : CacheRecord) : FsColl :=
  { c with docs := (k, v) :: c.docs.filter (fun d => d.1 != k) }

/-- The module-level stats object of cacheService.js. -/
structure CacheStats where
  l1Hits : Nat
  l2Hits : Nat
  misses : Nat
  writes : Nat
deriving Repr, DecidableEq

/-- The mutable state the cache service closes over: the L1 lru-cache, the
two Firestore collections (none models getWeeksCollection /
getYearsCollection returning null, i.e. Firestore not configured) and the
counters. -/
structure CacheState where
  memoryCache : LRU
  weeksCollection : Option FsColl
  yearsCollection : Option FsColl
  stats : CacheStats
deriving Repr, DecidableEq

/-- Increment of the misses counter. -/
def addMiss (s : CacheState) : CacheState :=
  { s with stats := { s.stats with misses := s.stats.misses + 1 } }

/-- The getTTL function of cacheService.js: TTL in milliseconds by week
number, null for weeks beyond a year. -/
def getTTL (weekNumber : Nat) : Option Nat :=
  if weekNumber == 0 then some (3600 * 1000)
  else if weekNumber ≤ 4 then some (24 * 3600 * 1000)
  else if weekNumber ≤ 52 then some (7 * 24 * 3600 * 1000)
  else none

/-- The isExpired function of cacheService.js: a record with a falsy
expiresAt (null, absent, or 0) is never expired, otherwise it is expired
once Date.now() exceeds expiresAt. -/
def isExpired (now : Nat) (cachedData : CacheRecord) : Bool :=
  match cachedData.expiresAt with
  | none => false
  | some t => if t == 0 then false else decide (now > t)

/-- Week cache key. -/
def weekKey (weekNumber : Nat) : String :=
  "week-" ++ toString weekNumber

/-- Year cache key. -/
def yearKey (year : Nat) : String :=
  "year-" ++ toString year

/-- The expiresAt metadata computed by the set operations:
ttl ? Date.now() + ttl : null. -/
def expiryOf (now : Nat) (ttl : Option Nat) : Option Nat :=
  match ttl with
  | none => none
  | some t => if t == 0 then none else some (now + t)

/-- The getWeekFromCache operation: L1 check first (has then get, counting
an L1 hit), then the weeks collection; a missing collection, a read error,
a missing document or an expired document all count a miss and return
absent; an unexpired document counts an L2 hit, is promoted to L1 with a
plain set (no ttl option) and is returned. -/
def getWeekFromCache (s : CacheState) (now : Nat) (weekNumber : Nat) :
    Option CacheRecord × CacheState :=
  let cacheKey := weekKey weekNumber
  if s.memoryCache.hasKey now cacheKey then
    let r := s.memoryCache.get now cacheKey
    (r.1, { s with memoryCache := r.2,
                   stats := { s.stats with l1Hits := s.stats.l1Hits + 1 } })
  else
    match s.weeksCollection with
    | none => (none, addMiss s)
    | some coll =>
        if coll.readFails then (none, addMiss s)
        else
          match coll.get cacheKey with
          | some data =>
              if isExpired now data then (none, addMiss s)
              else
                (some data,
                 { s with memoryCache := s.memoryCache.set now cacheKey data,
                          stats := { s.stats with l2Hits := s.stats.l2Hits + 1 } })
          | none => (none, addMiss s)

/-- The setWeekInCache operation: stamps cachedAt / expiresAt from getTTL,
writes to L1 with the computed ttl option, then writes to the weeks
collection when it is available; only a successful durable write increments
the writes counter (the increment sits after the awaited set inside the
try), and a write error is caught and logged. -/
def setWeekInCache (s : CacheState) (now : Nat) (weekNumber : Nat)
    (data : WeekData) : CacheState :=
  let cacheKey := weekKey weekNumber
  let ttl := getTTL weekNumber
  let cachedData : CacheRecord :=
    { data := data, cachedAt := now, expiresAt := expiryOf now ttl }
  let s1 := { s with memoryCache := s.memoryCache.setWith now cacheKey cachedData ttl }
  match s1.weeksCollection with
  | none => s1
  | some coll =>
      if coll.writeFails then s1
      else
        { s1 with weeksCollection := some (coll.set cacheKey cachedData),
                  stats := { s1.stats with writes := s1.stats.writes + 1 } }

/-- The year TTL expression used on both the year read path and the year
write path: year === currentYear ? 24 * 3600 * 1000 : null. -/
def yearTTL (currentYear year : Nat) : Option Nat :=
  if year == currentYear then some (24 * 3600 * 1000) else none

/-- The getYearFromCache operation: L1 check first, then the years
collection; on an unexpired document the ttl is re-derived from the current
calendar year and the record is promoted to L1 with that ttl option. The
expiry test is the inline data.expiresAt && Date.now() > data.expiresAt,
which is the same predicate as isExpired. -/
def getYearFromCache (s : CacheState) (now currentYear : Nat) (year : Nat) :
    Option CacheRecord × CacheState :=
  let cacheKey := yearKey year
  if s.memoryCache.hasKey now cacheKey then
    let r := s.memoryCache.get now cacheKey
    (r.1, { s with memoryCache := r.2,
                   stats := { s.stats with l1Hits := s.stats.l1Hits + 1 } })
  else
    match s.yearsCollection with
    | none => (none, addMiss s)
    | some coll =>
        if coll.readFails then (none, addMiss s)
        else
          match coll.get cacheKey with
          | some data =>
              if isExpired now data then (none, addMiss s)
              else
                let ttl := yearTTL currentYear year
                (some data,
                 { s with memoryCache := s.memoryCache.setWith now cacheKey data ttl,
                          stats := { s.stats with l2Hits := s.stats.l2Hits + 1 } })
          | none => (none, addMiss s)

/-- The setYearInCache operation: ttl from the current calendar year,
metadata stamped as in setWeekInCache, L1 write with the ttl option, then a
best-effort durable write that increments the writes counter only when it
succeeds. -/
def setYearInCache (s : CacheState) (now currentYear : Nat) (year : Nat)
    (data : WeekData) : CacheState :=
  let cacheKey := yearKey year
  let ttl := yearTTL currentYear year
  let cachedData : CacheRecord :=
    { data := data, cachedAt := now, expiresAt := expiryOf now ttl }
  let s1 := { s with memoryCache := s.memoryCache.setWith now cacheKey cachedData ttl }
  match s1.yearsCollection with
  | none => s1
  | some coll =>
      if coll.writeFails then s1
      else
        { s1 with yearsCollection := some (coll.set cacheKey cachedData),
                  stats := { s1.stats with writes := s1.stats.writes + 1 } }

/-- The clearAllCache operation: clears L1 synchronously; then, when the
weeks collection is available, reads its full snapshot, stages one delete
per document in a single Firestore batch and commits that one batch (an
error from the snapshot read or the commit is caught and logged).  The
years collection is not touched.  Besides the new state, the list of
committed batches (each batch the list of staged document keys) is
returned so that the batching structure can be stated. -/
def clearAllCache (s : CacheState) : CacheState × List (List String) :=
  let s1 := { s with memoryCache := { s.memoryCache with entries := [] } }
  match s1.weeksCollection with
  | none => (s1, [])
  | some coll =>
      if coll.readFails then (s1, [])
      else
        let batchOps := coll.docs.map (fun d => d.1)
        if coll.commitFails then (s1, [batchOps])
        else ({ s1 with weeksCollection := some { coll with docs := [] } }, [batchOps])

/-- Per-key outcome of a warmCache task, as in the objects the tasks
resolve with. -/
inductive WarmStatus
  | cached
  | warmed
  | error
deriving Repr, DecidableEq

/-- The object a warmCache task resolves with (the error message is not
modelled). -/
structure WarmResult where
  weekNumber : Nat
  status : WarmStatus
deriving Repr, DecidableEq

/-- One warmCache task: probe the cache; when present resolve cached
without touching fetchWeekFn; when absent call fetchWeekFn (the produce
function) — a throw is caught and resolves error, a payload is written
through setWeekInCache and resolves warmed.  The Bool records whether
fetchWeekFn was invoked. -/
def warmTask (s : CacheState) (now : Nat) (fetchWeekFn : Nat → Option WeekData)
    (weekNumber : Nat) : WarmResult × Bool × CacheState :=
  let r := getWeekFromCache s now weekNumber
  match r.1 with
  | some _ => ({ weekNumber := weekNumber, status := .cached }, false, r.2)
  | none =>
      match fetchWeekFn weekNumber with
      | none => ({ weekNumber := weekNumber, status := .error }, true, r.2)
      | some data =>
          ({ weekNumber := weekNumber, status := .warmed }, true,
           setWeekInCache r.2 now weekNumber data)

/-- The warmCache operation over its Promise.allSettled of per-key tasks,
folded at the sequential schedule; the per-key result objects are
collected (the JavaScript function itself returns undefined and only logs
a summary line). -/
def warmCache (s : CacheState) (now : Nat) (fetchWeekFn : Nat → Option WeekData)
    (weekNumbers : List Nat) : List WarmResult × CacheState :=
  match weekNumbers with
  | [] => ([], s)
  | w :: rest =>
      let t := warmTask s now fetchWeekFn w
      let r := warmCache t.2.2 now fetchWeekFn rest
      (t.1 :: r.1, r.2)

/-- Promise.allSettled settlement statuses of the warm tasks: every task
catches its own error and returns an object, so every promise fulfills. -/
def settledStatuses (results : List WarmResult) : List String :=
  results.map (fun _ => "fulfilled")

/-- The successful / failed pair warmCache logs at the end: counts of
fulfilled and rejected settlement results. -/
def warmCacheLogCounts (results : List WarmResult) : Nat × Nat :=
  (((settledStatuses results).filter (fun st => st == "fulfilled")).length,
   ((settledStatuses results).filter (fun st => st == "rejected")).length)

/-- Result of generateWeekData as seen by its caller: a cache hit returns
the stored record (metadata included), a cache miss returns the freshly
built weekData object, which carries no cache metadata. -/
inductive WeekResult
  | fromCache (r : CacheRecord)
  | fresh (d : WeekData)
deriving Repr, DecidableEq

/-- The weekNumber field of either kind of returned object. -/
def WeekResult.weekNumber : WeekResult → Nat
  | .fromCache r => r.data.weekNumber
  | .fresh d => d.weekNumber

/-- Events of the fetch trace: one produce invocation (the Promise.all
fan-out to the four data services for one week) starting and settling. -/
inductive FetchEvent
  | produceStart (weekNumber : Nat)
  | produceEnd (weekNumber : Nat)
deriving Repr, DecidableEq

/-- The generateWeekData operation: probe the two-tier cache; on a hit
return the cached record; on a miss invoke produce (emitting its start and
end events — the call is awaited, so it settles before control returns),
and on success store the result through setWeekInCache and return it; a
produce failure propagates as an absent result (the throw is caught by the
batch callers). -/
def generateWeekData (s : CacheState) (now : Nat) (produce : Nat → Option WeekData)
    (weekNumber : Nat) : Option WeekResult × List FetchEvent × CacheState :=
  let r := getWeekFromCache s now weekNumber
  match r.1 with
  | some cached => (some (.fromCache cached), [], r.2)
  | none =>
      match produce weekNumber with
      | none => (none, [.produceStart weekNumber, .produceEnd weekNumber], r.2)
      | some weekData =>
          (some (.fresh weekData),
           [.produceStart weekNumber, .produceEnd weekNumber],
           setWeekInCache r.2 now weekNumber weekData)

/-- The checkCacheStatus operation: probe every requested week through
getWeekFromCache and partition the week numbers into cached and uncached
(the Promise.all of probes is folded at the sequential schedule, which
fixes one of the possible push orders). -/
def checkCacheStatus (s : CacheState) (now : Nat) (weekNumbers : List Nat) :
    List Nat × List Nat × CacheState :=
  match weekNumbers with
  | [] => ([], [], s)
  | w :: rest =>
      let r := getWeekFromCache s now w
      let cs := checkCacheStatus r.2 now rest
      match r.1 with
      | some _ => (w :: cs.1, cs.2.1, cs.2.2)
      | none => (cs.1, w :: cs.2.1, cs.2.2)

/-- Output of one fetch phase of generateWeeks: the surviving records in
fetch order, one outcome per attempted key (the fetched record, or none
when that key's generateWeekData threw and the key was dropped), and the
final state. -/
structure PhaseOut where
  weeks : List WeekResult
  outcomes : List (Nat × Option WeekResult)
  state : CacheState
deriving Repr, DecidableEq

/-- One fetch phase of generateWeeks: generateWeekData per key under a
try/catch, keeping the successful records in order and dropping failed
keys.  The cached phase (a Promise.all whose failures become null and are
filtered out) and the uncached phase (a sequential awaited loop whose
failures are skipped) compute the same records, outcomes and final state
as this fold at the sequential schedule; trace statements are made
separately through the schedule-generic BatchTraces semantics below. -/
def fetchPhase (s : CacheState) (now : Nat) (produce : Nat → Option WeekData)
    (keys : List Nat) : PhaseOut :=
  match keys with
  | [] => { weeks := [], outcomes := [], state := s }
  | w :: rest =>
      let g := generateWeekData s now produce w
      let r := fetchPhase g.2.2 now produce rest
      match g.1 with
      | some wr =>
          { weeks := wr :: r.weeks, outcomes := (w, some wr) :: r.outcomes,
            state := r.state }
      | none =>
          { weeks := r.weeks, outcomes := (w, none) :: r.outcomes,
            state := r.state }

/-- The generateWeeks operation: build the requested window of week
numbers, partition it by cache status, fetch the cached subset (in the
source concurrently, with failures dropped), then the uncached subset
strictly sequentially (failures dropped), and sort the surviving records
by weekNumber ascending, as the comparator a.weekNumber - b.weekNumber
does. -/
def generateWeeks (s : CacheState) (now : Nat) (produce : Nat → Option WeekData)
    (count offset : Nat) : PhaseOut :=
  let weekNumbers := (List.range count).map (fun i => offset + i)
  let cs := checkCacheStatus s now weekNumbers
  let cachedPhase := fetchPhase cs.2.2 now produce cs.1
  let uncachedPhase := fetchPhase cachedPhase.state now produce cs.2.1
  { weeks := ((cachedPhase.weeks ++ uncachedPhase.weeks).mergeSort
        (fun a b => decide (a.weekNumber ≤ b.weekNumber))),
    outcomes := cachedPhase.outcomes ++ uncachedPhase.outcomes,
    state := uncachedPhase.state }

/-- Number of produce calls for keys of the given subset started in a
trace. -/
def produceStartsFor (keys : List Nat) (tr : List FetchEvent) : Nat :=
  (tr.filter (fun e => match e with
    | .produceStart w => decide (w ∈ keys)
    | _ => false)).length

/-- Number of produce calls for keys of the given subset settled in a
trace. -/
def produceEndsFor (keys : List Nat) (tr : List FetchEvent) : Nat :=
  (tr.filter (fun e => match e with
    | .produceEnd w => decide (w ∈ keys)
    | _ => false)).length

/-- At every instant of a trace, at most one produce call for a key of the
given subset is in flight: every prefix has opened at most one such call
more than have settled. -/
def SequentialProduceFor (keys : List Nat) (tr : List FetchEvent) : Prop :=
  ∀ n : Nat, produceStartsFor keys (tr.take n) ≤ produceEndsFor keys (tr.take n) + 1

/-- A trace in which every produce call for the given subset has
settled. -/
def BalancedFor (keys : List Nat) (tr : List FetchEvent) : Prop :=
  produceStartsFor keys tr = produceEndsFor keys tr

/-- The possible produce-event emissions of one per-key fetch task, over
every schedule and every evolution of the shared cache state: the task
body (generateWeekData) performs at most one produce call, for its own key
only, and awaits it, so on any schedule the task emits either no produce
events or one start/settle block for its key.  The lemma
generateWeekData_trace grounds this in the embedded task body. -/
def TaskTrace (w : Nat) (tr : List FetchEvent) : Prop :=
  tr = [] ∨ tr = [FetchEvent.produceStart w, FetchEvent.produceEnd w]

/-- Interleaving of two event sequences: the possible observation orders
of two concurrent computations, each one's own event order preserved. -/
inductive Interleave : List FetchEvent → List FetchEvent → List FetchEvent → Prop
  | nil : Interleave [] [] []
  | left {a : FetchEvent} {l r t : List FetchEvent} :
      Interleave l r t → Interleave (a :: l) r (a :: t)
  | right {a : FetchEvent} {l r t : List FetchEvent} :
      Interleave l r t → Interleave l (a :: r) (a :: t)

/-- Traces of a list of tasks run with unbounded parallelism, as under
Promise.all: any interleaving of the individual task traces. -/
inductive ParTraces : List (List FetchEvent) → List FetchEvent → Prop
  | nil : ParTraces [] []
  | cons {tr : List FetchEvent} {trs : List (List FetchEvent)} {t u : List FetchEvent} :
      ParTraces trs t → Interleave tr t u → ParTraces (tr :: trs) u

/-- The possible event traces of one generateWeeks batch over every
schedule, for a given cached / uncached partition of the window: the
cached-subset tasks run under an awaited Promise.all, so the first segment
is any interleaving of their per-task traces and is complete before the
cold loop starts; the uncached-subset tasks then run in the awaited
for-loop, strictly sequentially, so their traces are concatenated in
order — each iteration starts only after the previous produce call has
settled. -/
def BatchTraces (cached uncached : List Nat) (tr : List FetchEvent) : Prop :=
  ∃ ts us : List (List FetchEvent),
    List.Forall₂ TaskTrace cached ts
    ∧ List.Forall₂ TaskTrace uncached us
    ∧ ∃ t1, ParTraces ts t1 ∧ tr = t1 ++ us.flatten

/-! Theorems about the embedded operations, one per claim of the
specification, with helper lemmas and concrete witnesses. -/

/-- C4: the TTL policy function returns 1 hour for offset 0, 24 hours for
offsets 1 to 4, 7 days for offsets 5 to 52 and no expiration beyond 52;
and on the year write path the current calendar year gets a 24 hour TTL
(an expiresAt of now plus 24 hours) while any past year gets no
expiration, setYearInCache writing exactly the record stamped with that
policy. -/
theorem ttl_policy_c4 :
    getTTL 0 = some (3600 * 1000)
    ∧ (∀ n : Nat, 1 ≤ n → n ≤ 4 → getTTL n = some (24 * 3600 * 1000))
    ∧ (∀ n : Nat, 5 ≤ n → n ≤ 52 → getTTL n = some (7 * 24 * 3600 * 1000))
    ∧ (∀ n : Nat, 52 < n → getTTL n = none)
    ∧ (∀ now cy : Nat, expiryOf now (yearTTL cy cy) = some (now + 24 * 3600 * 1000))
    ∧ (∀ now cy y : Nat, y < cy → expiryOf now (yearTTL cy y) = none)
    ∧ (∀ (s : CacheState) (now cy y : Nat) (d : WeekData),
        (setYearInCache s now cy y d).memoryCache =
          s.memoryCache.setWith now (yearKey y)
            { data := d, cachedAt := now, expiresAt := expiryOf now (yearTTL cy y) }
            (yearTTL cy y)) := by
  refine ⟨rfl, ?_, ?_, ?_, ?_, ?_, ?_⟩
  · intro n h1 h4
    have h0 : (n == 0) = false := by simp; omega
    simp [getTTL, h0, h4]
  · intro n h5 h52
    have h0 : (n == 0) = false := by simp; omega
    have h4 : ¬ n ≤ 4 := by omega
    simp [getTTL, h0, h4, h52]
  · intro n h52
    have h0 : (n == 0) = false := by simp; omega
    have h4 : ¬ n ≤ 4 := by omega
    have h52n : ¬ n ≤ 52 := by omega
    simp [getTTL, h0, h4, h52n]
  · intro now cy
    simp [yearTTL, expiryOf]
  · intro now cy y hy
    have h : (y == cy) = false := by simp; omega
    simp [yearTTL, expiryOf, h]
  · intro s now cy y d
    unfold setYearInCache
    cases h : s.yearsCollection with
    | none => rfl
    | some coll => dsimp only; split <;> rfl

/-- Witness for C4 at concrete offsets and years. -/
theorem ttl_policy_c4_witness :
    getTTL 3 = some (24 * 3600 * 1000)
    ∧ getTTL 10 = some (7 * 24 * 3600 * 1000)
    ∧ getTTL 53 = none
    ∧ expiryOf 1000 (yearTTL 2025 2024) = none :=
  ⟨ttl_policy_c4.2.1 3 (by decide) (by decide),
   ttl_policy_c4.2.2.1 10 (by decide) (by decide),
   ttl_policy_c4.2.2.2.1 53 (by decide),
   ttl_policy_c4.2.2.2.2.2.1 1000 2025 2024 (by decide)⟩

/-- Record used in the C9 eviction scenario. -/
def c9Record (i : Nat) : CacheRecord :=
  { data := { weekNumber := i, body := 0 }, cachedAt := 0, expiresAt := none }

/-- Insert a list of week keys into an LRU cache with plain set calls. -/
def c9Insert (c : LRU) (names : List Nat) : LRU :=
  names.foldl (fun acc i => acc.set 0 (weekKey i) (c9Record i)) c

/-- The C9 scenario on the configured L1 cache: insert keys 0 to 9 (ten
distinct keys), read key 0 back (refreshing its recency), then insert an
eleventh key 10. -/
def c9Final : LRU :=
  (((c9Insert memoryCacheInit [0, 1, 2, 3, 4, 5, 6, 7, 8, 9]).get 0 (weekKey 0)).2).set 0
    (weekKey 10) (c9Record 10)

/-- C9: a set on the hot tier never leaves more than max entries and a
get never grows the tier, so the cache built with max 10 never holds more
than 10; and in the scenario of eleven distinct inserts with key 0 re-read
before the eleventh insert, exactly ten entries remain, the least recently
accessed key 1 is the one evicted, and the re-read key 0 survives. -/
theorem hot_tier_capacity_c9 :
    (∀ (c : LRU) (now : Nat) (k : String) (v : CacheRecord) (ttl : Option Nat),
        (c.setWith now k v ttl).entries.length ≤ c.max)
    ∧ (∀ (c : LRU) (now : Nat) (k : String),
        (c.get now k).2.entries.length ≤ c.entries.length)
    ∧ memoryCacheInit.max = 10
    ∧ c9Final.entries.length = 10
    ∧ c9Final.findEntry (weekKey 1) = none
    ∧ (c9Final.findEntry (weekKey 0)).isSome = true
    ∧ c9Final.entries.map LRUEntry.key =
        [weekKey 10, weekKey 0, weekKey 9, weekKey 8, weekKey 7, weekKey 6,
         weekKey 5, weekKey 4, weekKey 3, weekKey 2] := by
  refine ⟨?_, ?_, rfl, by decide, by decide, by decide, by decide⟩
  · intro c now k v ttl
    simp [LRU.setWith, List.length_take]
  · intro c now k
    unfold LRU.get
    cases h : c.findEntry k with
    | none => exact Nat.le_refl _
    | some e =>
        dsimp only
        cases hs : e.isStale now with
        | true =>
            rw [if_pos rfl]
            exact List.length_filter_le _ _
        | false =>
            rw [if_neg (by simp)]
            have hf : c.entries.find? (fun x => x.key == k) = some e := h
            have hmem : e ∈ c.entries := List.mem_of_find?_eq_some hf
            have hpred : (e.key == k) = true := by
              have := List.find?_some hf
              simpa using this
            have hlt : (LRU.removeKey c k).length < c.entries.length := by
              show (c.entries.filter (fun x => x.key != k)).length < c.entries.length
              rw [List.length_filter_lt_length_iff_exists]
              exact ⟨e, hmem, by simp [eq_of_beq hpred]⟩
            show (LRU.removeKey c k).length + 1 ≤ c.entries.length
            omega

/-- Stats object with all counters at zero, as at module load. -/
def zeroStats : CacheStats :=
  { l1Hits := 0, l2Hits := 0, misses := 0, writes := 0 }

/-- C5: a week lookup that misses the hot tier and finds a durable
document whose expiresAt lies strictly in the past returns absent and
counts a miss, the state otherwise unchanged — in particular the expired
document stays physically present and untouched in the durable tier (lazy
expiration, no eager purge) — and a record with an absent expiresAt is
never treated as expired. -/
theorem lazy_expiration_c5 :
    (∀ (d : CacheRecord), d.expiresAt = none → ∀ now : Nat, isExpired now d = false)
    ∧ (∀ (s : CacheState) (now w : Nat) (coll : FsColl) (d : CacheRecord) (t : Nat),
        s.memoryCache.hasKey now (weekKey w) = false →
        s.weeksCollection = some coll →
        coll.readFails = false →
        coll.get (weekKey w) = some d →
        d.expiresAt = some t → t ≠ 0 → t < now →
        getWeekFromCache s now w = (none, addMiss s)
        ∧ (addMiss s).weeksCollection = some coll
        ∧ coll.get (weekKey w) = some d) := by
  constructor
  · intro d hd now
    simp [isExpired, hd]
  · intro s now w coll d t h1 h2 h3 h4 h5 h6 h7
    have ht : (t == 0) = false := by simp [h6]
    have hexp : isExpired now d = true := by
      simp [isExpired, h5, ht]
      omega
    refine ⟨?_, ?_, h4⟩
    · simp only [getWeekFromCache, h1, Bool.false_eq_true, if_false, h2, h3, h4, hexp,
        if_true]
    · simp [addMiss, h2]

/-- Expired durable document used by the C5 witness. -/
def c5Doc : CacheRecord :=
  { data := { weekNumber := 3, body := 7 }, cachedAt := 50, expiresAt := some 60 }

/-- Weeks collection of the C5 witness, healthy and holding the expired
document. -/
def c5Coll : FsColl :=
  { docs := [(weekKey 3, c5Doc)], readFails := false, writeFails := false,
    commitFails := false }

/-- Cache state of the C5 witness: empty hot tier, the expired document in
the durable tier. -/
def c5State : CacheState :=
  { memoryCache := memoryCacheInit, weeksCollection := some c5Coll,
    yearsCollection := none, stats := zeroStats }

/-- Witness for C5: at time 100 the document that expired at 60 is a miss
and stays in the durable tier. -/
theorem lazy_expiration_c5_witness :
    getWeekFromCache c5State 100 3 = (none, addMiss c5State)
    ∧ c5Coll.get (weekKey 3) = some c5Doc :=
  ⟨(lazy_expiration_c5.2 c5State 100 3 c5Coll c5Doc 60 (by decide) rfl rfl (by decide)
      rfl (by decide) (by decide)).1,
   (lazy_expiration_c5.2 c5State 100 3 c5Coll c5Doc 60 (by decide) rfl rfl (by decide)
      rfl (by decide) (by decide)).2.2⟩

/-- C10: when a key is present (and not stale by the hot tier's own
clock) in the hot tier, getWeekFromCache for a week key and
getYearFromCache for a year key each return the stored record and count an
L1 hit without ever evaluating the record's expiresAt field — the
resulting value and state are fully determined by the entry alone, for
every value of expiresAt, and the durable tier is not consulted. -/
theorem l1_hit_skips_expiry_c10 :
    (∀ (s : CacheState) (now w : Nat) (e : LRUEntry),
      s.memoryCache.findEntry (weekKey w) = some e →
      e.isStale now = false →
      getWeekFromCache s now w =
        (some e.val,
         { s with
             memoryCache :=
               { s.memoryCache with
                   entries := { e with start := now } :: s.memoryCache.removeKey (weekKey w) },
             stats := { s.stats with l1Hits := s.stats.l1Hits + 1 } }))
    ∧ (∀ (s : CacheState) (now cy y : Nat) (e : LRUEntry),
      s.memoryCache.findEntry (yearKey y) = some e →
      e.isStale now = false →
      getYearFromCache s now cy y =
        (some e.val,
         { s with
             memoryCache :=
               { s.memoryCache with
                   entries := { e with start := now } :: s.memoryCache.removeKey (yearKey y) },
             stats := { s.stats with l1Hits := s.stats.l1Hits + 1 } })) := by
  constructor
  · intro s now w e h1 h2
    have hhas : s.memoryCache.hasKey now (weekKey w) = true := by
      simp [LRU.hasKey, h1, h2]
    have hget : s.memoryCache.get now (weekKey w) =
        (some e.val,
         { s.memoryCache with
             entries := { e with start := now } :: s.memoryCache.removeKey (weekKey w) }) := by
      simp [LRU.get, h1, h2]
    simp [getWeekFromCache, hhas, hget]
  · intro s now cy y e h1 h2
    have hhas : s.memoryCache.hasKey now (yearKey y) = true := by
      simp [LRU.hasKey, h1, h2]
    have hget : s.memoryCache.get now (yearKey y) =
        (some e.val,
         { s.memoryCache with
             entries := { e with start := now } :: s.memoryCache.removeKey (yearKey y) }) := by
      simp [LRU.get, h1, h2]
    simp [getYearFromCache, hhas, hget]

/-- Hot tier entry of the C10 witness: its stored expiresAt (60) is long
past at lookup time 100, but the entry itself is fresh by the tier's own
TTL clock. -/
def c10Entry : LRUEntry :=
  { key := weekKey 2,
    val := { data := { weekNumber := 2, body := 9 }, cachedAt := 4, expiresAt := some 60 },
    ttl := some (1000 * 60 * 60), start := 90 }

/-- An empty, healthy Firestore collection. -/
def emptyColl : FsColl :=
  { docs := [], readFails := false, writeFails := false, commitFails := false }

/-- Cache state of the C10 witness. -/
def c10State : CacheState :=
  { memoryCache := { memoryCacheInit with entries := [c10Entry] },
    weeksCollection := some emptyColl,
    yearsCollection := none, stats := zeroStats }

/-- Hot tier year entry of the C10 witness: its stored expiresAt (60) is
long past at lookup time 100, but the entry itself never goes stale (a
past-year promotion carries no hot tier TTL). -/
def c10YearEntry : LRUEntry :=
  { key := yearKey 2024,
    val := { data := { weekNumber := 0, body := 12 }, cachedAt := 4, expiresAt := some 60 },
    ttl := none, start := 90 }

/-- Cache state of the C10 year-path witness. -/
def c10YearState : CacheState :=
  { memoryCache := { memoryCacheInit with entries := [c10YearEntry] },
    weeksCollection := none,
    yearsCollection := some emptyColl, stats := zeroStats }

/-- Witness for C10: on both the week path and the year path the hot tier
returns a record whose stored expiresAt has already passed (each record is
expired by the durable-path predicate), counting an L1 hit. -/
theorem l1_hit_skips_expiry_c10_witness :
    (getWeekFromCache c10State 100 2).1 = some c10Entry.val
    ∧ (getWeekFromCache c10State 100 2).2.stats.l1Hits = 1
    ∧ isExpired 100 c10Entry.val = true
    ∧ (getYearFromCache c10YearState 100 2025 2024).1 = some c10YearEntry.val
    ∧ (getYearFromCache c10YearState 100 2025 2024).2.stats.l1Hits = 1
    ∧ isExpired 100 c10YearEntry.val = true :=
  ⟨by rw [l1_hit_skips_expiry_c10.1 c10State 100 2 c10Entry (by decide) (by decide)],
   by rw [l1_hit_skips_expiry_c10.1 c10State 100 2 c10Entry (by decide) (by decide)]; rfl,
   by decide,
   by rw [l1_hit_skips_expiry_c10.2 c10YearState 100 2025 2024 c10YearEntry (by decide)
        (by decide)],
   by rw [l1_hit_skips_expiry_c10.2 c10YearState 100 2025 2024 c10YearEntry (by decide)
        (by decide)]; rfl,
   by decide⟩

/-- Unexpired durable document for week 10 used in the C1 statements. -/
def c1Doc : CacheRecord :=
  { data := { weekNumber := 10, body := 5 }, cachedAt := 0, expiresAt := none }

/-- Healthy weeks collection holding the week 10 document. -/
def c1Coll : FsColl :=
  { docs := [(weekKey 10, c1Doc)], readFails := false, writeFails := false,
    commitFails := false }

/-- Cache state for C1: empty hot tier, week 10 in the durable tier. -/
def c1State : CacheState :=
  { memoryCache := memoryCacheInit, weeksCollection := some c1Coll,
    yearsCollection := none, stats := zeroStats }

/-- Counterexample to C1: the durable hit on week 10 does promote the
record and return it, but the promoted hot tier entry carries the tier's
default TTL of one hour, not the 7 day TTL the age-tiered policy assigns
to offset 10 — the promotion TTL is not recomputed from the record's age
class on the week path. -/
theorem promotion_ttl_counterexample_c1 :
    (getWeekFromCache c1State 1000 10).1 = some c1Doc
    ∧ (getWeekFromCache c1State 1000 10).2.stats.l2Hits = 1
    ∧ ((getWeekFromCache c1State 1000 10).2.memoryCache.findEntry (weekKey 10)).map
        LRUEntry.ttl = some (some (1000 * 60 * 60))
    ∧ getTTL 10 = some (7 * 24 * 3600 * 1000)
    ∧ ((getWeekFromCache c1State 1000 10).2.memoryCache.findEntry (weekKey 10)).map
        LRUEntry.ttl ≠ some (getTTL 10) := by
  decide

/-- C1 amended: a durable week hit counts a durable hit, promotes the
record into the hot tier via a plain set and returns it; the promoted
entry carries the hot tier's constructor default TTL (one hour on this
cache), not a TTL recomputed from the record's age class; on the year
path the promoted entry's TTL is instead re-derived from the then-current
calendar year (24 hours for the current year, none otherwise). -/
theorem durable_hit_promotes_c1 :
    (∀ (s : CacheState) (now w : Nat) (coll : FsColl) (d : CacheRecord),
        s.memoryCache.hasKey now (weekKey w) = false →
        s.weeksCollection = some coll →
        coll.readFails = false →
        coll.get (weekKey w) = some d →
        isExpired now d = false →
        getWeekFromCache s now w =
          (some d,
           { s with memoryCache := s.memoryCache.set now (weekKey w) d,
                    stats := { s.stats with l2Hits := s.stats.l2Hits + 1 } }))
    ∧ (∀ (c : LRU) (now : Nat) (k : String) (v : CacheRecord), 0 < c.max →
        ((c.set now k v).findEntry k).map LRUEntry.ttl = some c.ttl)
    ∧ memoryCacheInit.ttl = some (1000 * 60 * 60)
    ∧ (∀ (s : CacheState) (now cy y : Nat) (coll : FsColl) (d : CacheRecord),
        s.memoryCache.hasKey now (yearKey y) = false →
        s.yearsCollection = some coll →
        coll.readFails = false →
        coll.get (yearKey y) = some d →
        isExpired now d = false →
        getYearFromCache s now cy y =
          (some d,
           { s with memoryCache := s.memoryCache.setWith now (yearKey y) d (yearTTL cy y),
                    stats := { s.stats with l2Hits := s.stats.l2Hits + 1 } })) := by
  refine ⟨?_, ?_, rfl, ?_⟩
  · intro s now w coll d h1 h2 h3 h4 h5
    simp only [getWeekFromCache, h1, Bool.false_eq_true, if_false, h2, h3, h4, h5,
      if_true]
  · intro c now k v hmax
    unfold LRU.set LRU.setWith LRU.findEntry
    cases hm : c.max with
    | zero => omega
    | succ m => simp [hm, List.take_succ_cons, List.find?_cons_of_pos]
  · intro s now cy y coll d h1 h2 h3 h4 h5
    simp only [getYearFromCache, h1, Bool.false_eq_true, if_false, h2, h3, h4, h5,
      if_true]

/-- Witness for the amended C1 at the concrete week 10 state and a
concrete promotion on the configured cache. -/
theorem durable_hit_promotes_c1_witness :
    getWeekFromCache c1State 1000 10 =
      (some c1Doc,
       { c1State with memoryCache := c1State.memoryCache.set 1000 (weekKey 10) c1Doc,
                      stats := { c1State.stats with l2Hits := c1State.stats.l2Hits + 1 } })
    ∧ ((memoryCacheInit.set 5 (weekKey 1) c1Doc).findEntry (weekKey 1)).map LRUEntry.ttl
        = some memoryCacheInit.ttl :=
  ⟨durable_hit_promotes_c1.1 c1State 1000 10 c1Coll c1Doc (by decide) rfl rfl
      (by decide) (by decide),
   durable_hit_promotes_c1.2.1 memoryCacheInit 5 (weekKey 1) c1Doc (by decide)⟩

/-- Cache state with the durable tier disabled, as when Firestore is not
configured. -/
def c2StateDisabled : CacheState :=
  { memoryCache := memoryCacheInit, weeksCollection := none, yearsCollection := none,
    stats := zeroStats }

/-- Counterexample to C2: with the durable tier disabled, a setRecord call
does not increment the writes counter at all, so the counter is not
incremented regardless of durable outcome. -/
theorem writes_counter_counterexample_c2 :
    (setWeekInCache c2StateDisabled 100 0 { weekNumber := 0, body := 1 }).stats.writes
      ≠ c2StateDisabled.stats.writes + 1 := by
  decide

/-- C2 amended: setWeekInCache and setYearInCache increment the writes
counter exactly once when the durable write succeeds, and leave it
unchanged when the durable tier is disabled or the durable write
throws. -/
theorem writes_on_success_only_c2 :
    ∀ (s : CacheState) (now w cy y : Nat) (d : WeekData),
      (s.weeksCollection = none →
        (setWeekInCache s now w d).stats.writes = s.stats.writes)
      ∧ (∀ coll : FsColl, s.weeksCollection = some coll → coll.writeFails = true →
        (setWeekInCache s now w d).stats.writes = s.stats.writes)
      ∧ (∀ coll : FsColl, s.weeksCollection = some coll → coll.writeFails = false →
        (setWeekInCache s now w d).stats.writes = s.stats.writes + 1)
      ∧ (s.yearsCollection = none →
        (setYearInCache s now cy y d).stats.writes = s.stats.writes)
      ∧ (∀ coll : FsColl, s.yearsCollection = some coll → coll.writeFails = true →
        (setYearInCache s now cy y d).stats.writes = s.stats.writes)
      ∧ (∀ coll : FsColl, s.yearsCollection = some coll → coll.writeFails = false →
        (setYearInCache s now cy y d).stats.writes = s.stats.writes + 1) := by
  intro s now w cy y d
  refine ⟨?_, ?_, ?_, ?_, ?_, ?_⟩
  · intro h; simp [setWeekInCache, h]
  · intro coll h hw; simp [setWeekInCache, h, hw]
  · intro coll h hw; simp [setWeekInCache, h, hw]
  · intro h; simp [setYearInCache, h]
  · intro coll h hw; simp [setYearInCache, h, hw]
  · intro coll h hw; simp [setYearInCache, h, hw]

/-- Witness for the amended C2: a successful durable write counts one
write; a disabled tier counts none. -/
theorem writes_on_success_only_c2_witness :
    (setWeekInCache c5State 100 7 { weekNumber := 7, body := 2 }).stats.writes
      = c5State.stats.writes + 1
    ∧ (setWeekInCache c2StateDisabled 100 7 { weekNumber := 7, body := 2 }).stats.writes
      = c2StateDisabled.stats.writes :=
  ⟨(writes_on_success_only_c2 c5State 100 7 0 0 { weekNumber := 7, body := 2 }).2.2.1
      c5Coll rfl rfl,
   (writes_on_success_only_c2 c2StateDisabled 100 7 0 0 { weekNumber := 7, body := 2 }).1
      rfl⟩

/-- Year document cached in the durable tier in the C3 counterexample. -/
def c3YearDoc : CacheRecord :=
  { data := { weekNumber := 0, body := 11 }, cachedAt := 0, expiresAt := none }

/-- Years collection holding one cached year record. -/
def c3YearsColl : FsColl :=
  { docs := [(yearKey 2024, c3YearDoc)], readFails := false, writeFails := false,
    commitFails := false }

/-- Cache state for C3: one week document and one year document in the
durable tier, everything healthy. -/
def c3State : CacheState :=
  { memoryCache := memoryCacheInit, weeksCollection := some c1Coll,
    yearsCollection := some c3YearsColl, stats := zeroStats }

/-- Counterexample to C3: clearAll completes without error, yet the
cached year record is still present in the durable tier afterwards (only
the weeks collection is cleared), and the deletion ran as exactly one
batch containing every week document rather than chunked batches. -/
theorem clear_all_counterexample_c3 :
    ((clearAllCache c3State).1.yearsCollection.bind (fun c => c.get (yearKey 2024)))
      = some c3YearDoc
    ∧ (clearAllCache c3State).2 = [[weekKey 10]] := by
  decide

/-- C3 amended: clearAll empties the hot tier synchronously and, when the
weeks collection is available and healthy, deletes all of its documents in
one single batch commit; the years collection is never touched, so cached
year records survive clearAll in the durable tier; a snapshot or commit
failure is caught (the weeks documents then survive as well) and never
raised. -/
theorem clear_all_amended_c3 :
    ∀ s : CacheState,
      (clearAllCache s).1.memoryCache.entries = []
      ∧ (clearAllCache s).1.yearsCollection = s.yearsCollection
      ∧ (s.weeksCollection = none →
          (clearAllCache s).1.weeksCollection = none ∧ (clearAllCache s).2 = [])
      ∧ (∀ coll : FsColl, s.weeksCollection = some coll →
          coll.readFails = false → coll.commitFails = false →
          (clearAllCache s).1.weeksCollection = some { coll with docs := [] }
          ∧ (clearAllCache s).2 = [coll.docs.map (fun dd => dd.1)])
      ∧ (∀ coll : FsColl, s.weeksCollection = some coll →
          coll.readFails = false → coll.commitFails = true →
          (clearAllCache s).1.weeksCollection = some coll) := by
  intro s
  refine ⟨?_, ?_, ?_, ?_, ?_⟩
  · simp only [clearAllCache]
    cases h : s.weeksCollection with
    | none => rfl
    | some coll => dsimp only; split <;> (try split) <;> rfl
  · simp only [clearAllCache]
    cases h : s.weeksCollection with
    | none => rfl
    | some coll => dsimp only; split <;> (try split) <;> rfl
  · intro h
    simp [clearAllCache, h]
  · intro coll h hr hc
    simp [clearAllCache, h, hr, hc]
  · intro coll h hr hc
    simp [clearAllCache, h, hr, hc]

/-- Witness for the amended C3 at the concrete C3 state. -/
theorem clear_all_amended_c3_witness :
    (clearAllCache c3State).1.weeksCollection = some { c1Coll with docs := [] }
    ∧ (clearAllCache c3State).2 = [c1Coll.docs.map (fun dd => dd.1)] :=
  (clear_all_amended_c3 c3State).2.2.2.1 c1Coll rfl rfl rfl

/-- Every warm result carries exactly one of the three statuses, so the
three per-status counts partition the result list. -/
theorem warm_counts_partition (results : List WarmResult) :
    results.countP (fun r => r.status == WarmStatus.cached)
      + results.countP (fun r => r.status == WarmStatus.warmed)
      + results.countP (fun r => r.status == WarmStatus.error)
      = results.length := by
  induction results with
  | nil => rfl
  | cons r rest ih =>
      cases h : r.status <;> simp [List.countP_cons, h] <;> omega

/-- The warmCache fold settles exactly one result per requested week. -/
theorem warmCache_length (s : CacheState) (now : Nat) (f : Nat → Option WeekData)
    (ws : List Nat) : (warmCache s now f ws).1.length = ws.length := by
  induction ws generalizing s with
  | nil => rfl
  | cons w rest ih => simp [warmCache, ih]

/-- Hot tier entry marking week 0 as already cached for C6. -/
def c6Entry : LRUEntry :=
  { key := weekKey 0,
    val := { data := { weekNumber := 0, body := 3 }, cachedAt := 0, expiresAt := none },
    ttl := some (1000 * 60 * 60), start := 100 }

/-- Cache state for C6: week 0 in the hot tier, durable tier disabled. -/
def c6State : CacheState :=
  { memoryCache := { memoryCacheInit with entries := [c6Entry] },
    weeksCollection := none, yearsCollection := none, stats := zeroStats }

/-- Produce function for C6: week 0 would succeed, week 1 throws. -/
def c6Produce : Nat → Option WeekData :=
  fun w => if w == 0 then some { weekNumber := 0, body := 3 } else none

/-- Counterexample to C6: warming the key set containing cached week 0
and failing week 1, the only summary the function reports — the
Promise.allSettled successful / failed counts of its completion log —
records zero failures even though one key failed, because every task
catches its own error and fulfills; no summary of already-cached,
freshly-warmed and failed counts is returned to the caller at all. -/
theorem warm_summary_counterexample_c6 :
    (warmCacheLogCounts (warmCache c6State 100 c6Produce [0, 1]).1).2 = 0
    ∧ (warmCache c6State 100 c6Produce [0, 1]).1.countP
        (fun r => r.status == WarmStatus.error) = 1
    ∧ (warmCacheLogCounts (warmCache c6State 100 c6Produce [0, 1]).1).2
        ≠ (warmCache c6State 100 c6Produce [0, 1]).1.countP
            (fun r => r.status == WarmStatus.error) := by
  decide

/-- C6 amended: a warm task whose cache probe returns a record resolves as
already cached without invoking the produce function; the per-key statuses
(cached, warmed, error) of the tasks sum to the size of the input key set;
but warmCache returns no summary — its completion log reports the
Promise.allSettled fulfilled / rejected counts, which are always the task
count and zero since every task catches its own error. -/
theorem warm_behavior_c6 :
    (∀ (s : CacheState) (now : Nat) (f : Nat → Option WeekData) (w : Nat)
        (r : CacheRecord),
        (getWeekFromCache s now w).1 = some r →
        warmTask s now f w =
          ({ weekNumber := w, status := WarmStatus.cached }, false,
           (getWeekFromCache s now w).2))
    ∧ (∀ (s : CacheState) (now : Nat) (f : Nat → Option WeekData) (ws : List Nat),
        (warmCache s now f ws).1.countP (fun r => r.status == WarmStatus.cached)
          + (warmCache s now f ws).1.countP (fun r => r.status == WarmStatus.warmed)
          + (warmCache s now f ws).1.countP (fun r => r.status == WarmStatus.error)
          = ws.length)
    ∧ (∀ results : List WarmResult, warmCacheLogCounts results = (results.length, 0)) := by
  refine ⟨?_, ?_, ?_⟩
  · intro s now f w r h
    simp [warmTask, h]
  · intro s now f ws
    rw [warm_counts_partition, warmCache_length]
  · intro results
    induction results with
    | nil => rfl
    | cons r rest ih =>
        simp only [warmCacheLogCounts, settledStatuses, List.map_cons, List.filter,
          List.length_cons] at ih ⊢
        simp_all

/-- Witness for the amended C6: the cached week 0 probe short-circuits the
produce call, and the counts of a concrete two-key run sum to two. -/
theorem warm_behavior_c6_witness :
    warmTask c6State 100 c6Produce 0 =
      ({ weekNumber := 0, status := WarmStatus.cached }, false,
       (getWeekFromCache c6State 100 0).2)
    ∧ (warmCache c6State 100 c6Produce [0, 1]).1.countP
          (fun r => r.status == WarmStatus.cached)
        + (warmCache c6State 100 c6Produce [0, 1]).1.countP
            (fun r => r.status == WarmStatus.warmed)
        + (warmCache c6State 100 c6Produce [0, 1]).1.countP
            (fun r => r.status == WarmStatus.error)
        = 2 :=
  ⟨warm_behavior_c6.1 c6State 100 c6Produce 0 c6Entry.val (by decide),
   warm_behavior_c6.2.1 c6State 100 c6Produce [0, 1]⟩

/-- Each attempted key of a fetch phase contributes exactly one outcome,
in attempt order. -/
theorem fetchPhase_keys (s : CacheState) (now : Nat) (produce : Nat → Option WeekData)
    (keys : List Nat) : (fetchPhase s now produce keys).outcomes.map Prod.fst = keys := by
  induction keys generalizing s with
  | nil => rfl
  | cons w rest ih =>
      simp only [fetchPhase]
      cases h : (generateWeekData s now produce w).1 <;> simp [h, ih]

/-- The surviving records of a fetch phase are exactly the successful
outcomes, in order: dropped keys contribute nothing. -/
theorem fetchPhase_weeks (s : CacheState) (now : Nat) (produce : Nat → Option WeekData)
    (keys : List Nat) :
    (fetchPhase s now produce keys).weeks =
      (fetchPhase s now produce keys).outcomes.filterMap Prod.snd := by
  induction keys generalizing s with
  | nil => rfl
  | cons w rest ih =>
      simp only [fetchPhase]
      cases h : (generateWeekData s now produce w).1 <;> simp [h, ih]

/-- The cached / uncached partition of checkCacheStatus is a permutation
of the probed week numbers. -/
theorem checkCacheStatus_perm (s : CacheState) (now : Nat) (ws : List Nat) :
    ((checkCacheStatus s now ws).1 ++ (checkCacheStatus s now ws).2.1).Perm ws := by
  induction ws generalizing s with
  | nil => simp [checkCacheStatus]
  | cons w rest ih =>
      simp only [checkCacheStatus]
      cases h : (getWeekFromCache s now w).1 with
      | some v =>
          simp only [h]
          exact (ih _).cons w
      | none =>
          simp only [h]
          exact List.perm_middle.trans ((ih _).cons w)

/-- C7: a batch fetch returns records sorted ascending by week number,
the returned records are exactly the records of the per-key fetches that
succeeded (each failed key is dropped, contributing no record), and every
requested week number of the window is attempted exactly once. -/
theorem generate_weeks_batch_c7 :
    ∀ (s : CacheState) (now : Nat) (produce : Nat → Option WeekData)
      (count offset : Nat),
      (generateWeeks s now produce count offset).weeks.Pairwise
          (fun a b => a.weekNumber ≤ b.weekNumber)
      ∧ (generateWeeks s now produce count offset).weeks.Perm
          ((generateWeeks s now produce count offset).outcomes.filterMap Prod.snd)
      ∧ ((generateWeeks s now produce count offset).outcomes.map Prod.fst).Perm
          ((List.range count).map (fun i => offset + i)) := by
  intro s now produce count offset
  simp only [generateWeeks]
  refine ⟨?_, ?_, ?_⟩
  · have htrans : ∀ (a b c : WeekResult),
        decide (a.weekNumber ≤ b.weekNumber) = true →
        decide (b.weekNumber ≤ c.weekNumber) = true →
        decide (a.weekNumber ≤ c.weekNumber) = true := by
      intro a b c hab hbc
      simp only [decide_eq_true_eq] at *
      omega
    have htotal : ∀ (a b : WeekResult),
        (decide (a.weekNumber ≤ b.weekNumber) || decide (b.weekNumber ≤ a.weekNumber))
          = true := by
      intro a b
      simp only [Bool.or_eq_true, decide_eq_true_eq]
      omega
    exact (List.sorted_mergeSort htrans htotal _).imp (fun h => by simpa using h)
  · rw [List.filterMap_append, ← fetchPhase_weeks, ← fetchPhase_weeks]
    exact List.mergeSort_perm _ _
  · rw [List.map_append, fetchPhase_keys, fetchPhase_keys]
    exact checkCacheStatus_perm _ _ _

/-- Number of produce starts for a key subset distributes over trace
concatenation. -/
theorem produceStartsFor_append (keys : List Nat) (t1 t2 : List FetchEvent) :
    produceStartsFor keys (t1 ++ t2) =
      produceStartsFor keys t1 + produceStartsFor keys t2 := by
  simp [produceStartsFor, List.filter_append]

/-- Number of produce settlements for a key subset distributes over trace
concatenation. -/
theorem produceEndsFor_append (keys : List Nat) (t1 t2 : List FetchEvent) :
    produceEndsFor keys (t1 ++ t2) =
      produceEndsFor keys t1 + produceEndsFor keys t2 := by
  simp [produceEndsFor, List.filter_append]

/-- Reordering a trace does not change how many produce calls it starts
for a key subset. -/
theorem produceStartsFor_perm (keys : List Nat) {t1 t2 : List FetchEvent}
    (h : t1.Perm t2) : produceStartsFor keys t1 = produceStartsFor keys t2 := by
  simp only [produceStartsFor, ← List.countP_eq_length_filter]
  exact h.countP_eq _

/-- A prefix starts no more produce calls for a subset than the whole
trace. -/
theorem produceStartsFor_take_le (keys : List Nat) (tr : List FetchEvent) (n : Nat) :
    produceStartsFor keys (tr.take n) ≤ produceStartsFor keys tr := by
  simp only [produceStartsFor]
  exact List.Sublist.length_le (List.Sublist.filter _ (List.take_sublist n tr))

/-- An interleaving of two event sequences is a permutation of their
concatenation. -/
theorem interleave_perm {l r t : List FetchEvent} (h : Interleave l r t) :
    t.Perm (l ++ r) := by
  induction h with
  | nil => exact List.Perm.refl _
  | left _ ih => exact ih.cons _
  | right _ ih => exact (ih.cons _).trans List.perm_middle.symm

/-- Any parallel trace of a task list is a permutation of the joined task
traces: parallelism reorders events but neither adds nor drops any. -/
theorem parTraces_perm {ts : List (List FetchEvent)} {t : List FetchEvent}
    (h : ParTraces ts t) : t.Perm ts.flatten := by
  induction h with
  | nil => exact List.Perm.refl _
  | cons _ hi ih => exact (interleave_perm hi).trans (ih.append_left _)

/-- The trace the embedded task body emits is one of the TaskTrace
emissions: empty on a cache hit, one awaited produce block for its own key
otherwise. -/
theorem generateWeekData_trace (s : CacheState) (now : Nat)
    (produce : Nat → Option WeekData) (w : Nat) :
    TaskTrace w (generateWeekData s now produce w).2.1 := by
  unfold TaskTrace
  simp only [generateWeekData]
  cases h : (getWeekFromCache s now w).1 with
  | some v => simp [h]
  | none => cases hp : produce w <;> simp [h, hp]

/-- Joined task traces for keys outside a subset start no produce call for
that subset. -/
theorem taskTraces_join_startsFor_zero {keys : List Nat} :
    ∀ {cached : List Nat} {ts : List (List FetchEvent)},
      List.Forall₂ TaskTrace cached ts →
      (∀ w ∈ cached, w ∉ keys) →
      produceStartsFor keys ts.flatten = 0 := by
  intro cached
  induction cached with
  | nil =>
      intro ts h hd
      cases h
      rfl
  | cons w cached2 ih =>
      intro ts h hd
      cases h with
      | cons hw hrest =>
          rename_i tr ts2
          have hw0 : produceStartsFor keys tr = 0 := by
            cases hw with
            | inl he => rw [he]; rfl
            | inr he =>
                rw [he]
                have hwk : w ∉ keys := hd w (List.mem_cons_self w cached2)
                simp [produceStartsFor, hwk]
          have ih0 := ih hrest (fun x hx => hd x (List.mem_cons_of_mem _ hx))
          show produceStartsFor keys (tr ++ ts2.flatten) = 0
          rw [produceStartsFor_append, hw0, ih0]

/-- The empty trace is balanced and keeps the one-in-flight bound. -/
theorem sequentialFor_nil (keys : List Nat) :
    BalancedFor keys ([] : List FetchEvent)
    ∧ SequentialProduceFor keys ([] : List FetchEvent) := by
  constructor
  · rfl
  · intro n
    simp [produceStartsFor, produceEndsFor]

/-- One awaited produce block is balanced and keeps the one-in-flight
bound, whether or not its key belongs to the counted subset. -/
theorem sequentialFor_block (keys : List Nat) (w : Nat) :
    BalancedFor keys [FetchEvent.produceStart w, FetchEvent.produceEnd w]
    ∧ SequentialProduceFor keys [FetchEvent.produceStart w, FetchEvent.produceEnd w] := by
  constructor
  · unfold BalancedFor
    cases hc : (decide (w ∈ keys)) <;>
      simp [produceStartsFor, produceEndsFor, List.filter, hc]
  · intro n
    match n with
    | 0 => simp [produceStartsFor, produceEndsFor]
    | 1 =>
        cases hc : (decide (w ∈ keys)) <;>
          simp [produceStartsFor, produceEndsFor, List.take, List.filter, hc]
    | (k + 2) =>
        cases hc : (decide (w ∈ keys)) <;>
          simp [produceStartsFor, produceEndsFor, List.take, List.filter, hc]

/-- Appending a trace after a balanced sequential trace preserves the
one-in-flight bound. -/
theorem sequentialFor_append (keys : List Nat) (t1 t2 : List FetchEvent)
    (hb : BalancedFor keys t1) (h1 : SequentialProduceFor keys t1)
    (h2 : SequentialProduceFor keys t2) :
    SequentialProduceFor keys (t1 ++ t2) := by
  intro n
  rw [List.take_append_eq_append_take, produceStartsFor_append, produceEndsFor_append]
  by_cases hn : n ≤ t1.length
  · have h0 : n - t1.length = 0 := by omega
    rw [h0]
    have := h1 n
    simp only [List.take_zero]
    have hz1 : produceStartsFor keys [] = 0 := rfl
    have hz2 : produceEndsFor keys [] = 0 := rfl
    omega
  · have hfull : t1.take n = t1 := List.take_of_length_le (by omega)
    rw [hfull]
    have := h2 (n - t1.length)
    have hbal := hb
    unfold BalancedFor at hbal
    omega

/-- The sequential cold loop's trace — task traces concatenated in awaited
order — is balanced and keeps at most one produce call in flight for every
key subset. -/
theorem sequentialFor_join (keys : List Nat) :
    ∀ {uncached : List Nat} {us : List (List FetchEvent)},
      List.Forall₂ TaskTrace uncached us →
      BalancedFor keys us.flatten ∧ SequentialProduceFor keys us.flatten := by
  intro uncached
  induction uncached with
  | nil =>
      intro us h
      cases h
      exact sequentialFor_nil keys
  | cons w uncached2 ih =>
      intro us h
      cases h with
      | cons hw hrest =>
          rename_i tr us2
          have hhead : BalancedFor keys tr ∧ SequentialProduceFor keys tr := by
            cases hw with
            | inl he => rw [he]; exact sequentialFor_nil keys
            | inr he => rw [he]; exact sequentialFor_block keys w
          obtain ⟨hb1, hs1⟩ := hhead
          obtain ⟨hb2, hs2⟩ := ih hrest
          constructor
          · show BalancedFor keys (tr ++ us2.flatten)
            unfold BalancedFor at hb1 hb2 ⊢
            rw [produceStartsFor_append, produceEndsFor_append]
            omega
          · show SequentialProduceFor keys (tr ++ us2.flatten)
            exact sequentialFor_append keys tr us2.flatten hb1 hs1 hs2

/-- C8: over every schedule of a batch fetch, at most one produce
invocation for the uncached subset is in flight at any instant: every
prefix of every possible batch trace has opened at most one uncached-key
produce call that has not settled.  The cached Promise.all phase may
interleave its tasks freely, but those tasks only produce for cached keys
(disjoint from the uncached subset of the distinct window), and the
awaited cold loop composes the uncached task traces strictly
sequentially. -/
theorem sequential_cold_c8 :
    ∀ (s : CacheState) (now count offset : Nat) (tr : List FetchEvent),
      BatchTraces
        (checkCacheStatus s now ((List.range count).map (fun i => offset + i))).1
        (checkCacheStatus s now ((List.range count).map (fun i => offset + i))).2.1
        tr →
      SequentialProduceFor
        (checkCacheStatus s now ((List.range count).map (fun i => offset + i))).2.1
        tr := by
  intro s now count offset tr hbt
  obtain ⟨ts, us, hts, hus, t1, hpar, rfl⟩ := hbt
  have hnodup : ((List.range count).map (fun i => offset + i)).Nodup :=
    (List.nodup_range count).map (fun a b hab => by omega)
  have hperm := checkCacheStatus_perm s now ((List.range count).map (fun i => offset + i))
  have hnd2 := hperm.nodup_iff.mpr hnodup
  have hdisj := (List.nodup_append.mp hnd2).2.2
  have hzero : produceStartsFor
      (checkCacheStatus s now ((List.range count).map (fun i => offset + i))).2.1 t1 = 0 := by
    rw [produceStartsFor_perm _ (parTraces_perm hpar)]
    exact taskTraces_join_startsFor_zero hts (fun w hw hk => hdisj hw hk)
  have hseq := sequentialFor_join
      (checkCacheStatus s now ((List.range count).map (fun i => offset + i))).2.1 hus
  intro n
  rw [List.take_append_eq_append_take, produceStartsFor_append, produceEndsFor_append]
  have h1 : produceStartsFor
      (checkCacheStatus s now ((List.range count).map (fun i => offset + i))).2.1
      (t1.take n) = 0 :=
    Nat.le_zero.mp (hzero ▸ produceStartsFor_take_le _ t1 n)
  have h2 := hseq.2 (n - t1.length)
  omega

/-- Sensitivity check for the sequential-cold bound: had the two uncached
produce blocks been composed in parallel (with ParTraces, as the cached
phase is) instead of concatenated by the awaited loop, an interleaving
with two produce calls in flight would be admitted and the one-in-flight
bound would fail.  The bound therefore rests on the program's sequential
composition of the cold loop, not on the trace semantics itself. -/
theorem parallel_cold_overlaps :
    ∃ tr : List FetchEvent,
      ParTraces [[FetchEvent.produceStart 0, FetchEvent.produceEnd 0],
                 [FetchEvent.produceStart 1, FetchEvent.produceEnd 1]] tr
      ∧ ¬ SequentialProduceFor [0, 1] tr := by
  refine ⟨[FetchEvent.produceStart 0, FetchEvent.produceStart 1,
           FetchEvent.produceEnd 0, FetchEvent.produceEnd 1], ?_, ?_⟩
  · have hinner : Interleave [FetchEvent.produceStart 1, FetchEvent.produceEnd 1] []
        [FetchEvent.produceStart 1, FetchEvent.produceEnd 1] :=
      Interleave.left (Interleave.left Interleave.nil)
    have hp1 : ParTraces [[FetchEvent.produceStart 1, FetchEvent.produceEnd 1]]
        [FetchEvent.produceStart 1, FetchEvent.produceEnd 1] :=
      ParTraces.cons ParTraces.nil hinner
    have houter : Interleave [FetchEvent.produceStart 0, FetchEvent.produceEnd 0]
        [FetchEvent.produceStart 1, FetchEvent.produceEnd 1]
        [FetchEvent.produceStart 0, FetchEvent.produceStart 1,
         FetchEvent.produceEnd 0, FetchEvent.produceEnd 1] :=
      Interleave.left (Interleave.right (Interleave.left
        (Interleave.right Interleave.nil)))
    exact ParTraces.cons hp1 houter
  · intro h
    have h2 := h 2
    simp [produceStartsFor, produceEndsFor, List.take, List.filter] at h2

/-- Witness for C8: on the disabled-tier state nothing is cached, the
two-week window is entirely uncached, and the cold loop's own trace — the
two produce blocks concatenated in awaited order — is a batch trace
satisfying the one-in-flight bound. -/
theorem sequential_cold_c8_witness :
    SequentialProduceFor
      (checkCacheStatus c2StateDisabled 100 ((List.range 2).map (fun i => 0 + i))).2.1
      [FetchEvent.produceStart 0, FetchEvent.produceEnd 0,
       FetchEvent.produceStart 1, FetchEvent.produceEnd 1] := by
  have h1 : (checkCacheStatus c2StateDisabled 100 ((List.range 2).map (fun i => 0 + i))).1
      = [] := by decide
  have h2 : (checkCacheStatus c2StateDisabled 100 ((List.range 2).map (fun i => 0 + i))).2.1
      = [0, 1] := by decide
  refine sequential_cold_c8 c2StateDisabled 100 2 0 _ ?_
  rw [h1, h2]
  exact ⟨[], [[FetchEvent.produceStart 0, FetchEvent.produceEnd 0],
              [FetchEvent.produceStart 1, FetchEvent.produceEnd 1]],
         List.Forall₂.nil,
         List.Forall₂.cons (Or.inr rfl) (List.Forall₂.cons (Or.inr rfl) List.Forall₂.nil),
         [], ParTraces.nil, rfl⟩

end Nbaghiro
